import Mathlib

/-!
Verification of the EU5 wiki table generator (`eu5/generate_tables.py`).

The file shallowly embeds the parts of `TableGenerator` that the checked
properties are about: the helper formatters (`format_modifier_section`,
`merge_multiple_sections`), the country-rank inference heuristic
(`infer_country_rank_key`), the building-notes table (`get_building_notes`),
the law-policy time normalisation (`_format_time_to_implement`), the boolean
cell renderers of `get_law_policy_table` and `generate_advances_table`, the
country note derivation (`get_country_notes`) and the concept section wrapper
(`get_concept_section`).  Python strings become `String`, Python lists become
`List`, a possibly-absent attribute becomes an `Option`, and Python dicts
(ordered, insertion order) become association lists.
-/

namespace GenTables

/-- Python's `sep.join(elements)`: empty for `[]`, no trailing separator. -/
def pyJoin (sep : String) : List String → String
  | [] => ""
  | [x] => x
  | x :: xs => x ++ sep ++ pyJoin sep xs

/-- Modelled from the spec: `create_wiki_list` lives in the generator base
class, which is not part of the examined file.  The spec describes it as
rendering a bulleted wiki list, an empty input rendering as the empty string
(not an empty bullet). -/
def create_wiki_list (elements : List String) : String :=
  pyJoin "\n" (elements.map fun e => "* " ++ e)

/-! ## Country rank inference (`infer_country_rank_key`) -/

/-- A location reference as the rank heuristic sees it: reading
`loc.province` either yields a province or raises (caught and treated as
`None` by the source), hence an `Option`. -/
structure Location where
  province : Option Nat
deriving DecidableEq, Repr

/-- The ownership attributes of a country entity that the note/rank code
inspects.  `none` models a country object without that attribute
(`hasattr` false); `some locs` models the attribute holding a list. -/
structure Country where
  name : String
  our_cores_conquered_by_others : Option (List Location) := none
  own_control_core : Option (List Location) := none
  own_core : Option (List Location) := none
  control : Option (List Location) := none
  own_conquered : Option (List Location) := none
  own_control_conquered : Option (List Location) := none
  own_control_integrated : Option (List Location) := none
  own_control_colony : Option (List Location) := none

/-- The loop body of `infer_country_rank_key` for one candidate attribute:
provinces contributed when the attribute exists, is a non-empty list, and the
location yields a province. -/
def attrProvinces : Option (List Location) → List Nat
  | none => []
  | some locs =>
    if locs.length > 0 then locs.filterMap Location.province else []

/-- The fixed ordered candidate attribute list of `infer_country_rank_key`. -/
def rankCandidates (c : Country) : List (Option (List Location)) :=
  [c.own_control_core, c.own_core, c.control,
   c.own_conquered, c.own_control_conquered, c.own_control_integrated,
   c.own_control_colony]

/-- The set `provinces` built by `infer_country_rank_key`, as a deduplicated
list; only its cardinality is consumed. -/
def collectedProvinces (c : Country) : List Nat :=
  ((rankCandidates c).flatMap attrProvinces).dedup

/-- `infer_country_rank_key` from the source: classify the number of distinct
provinces into four rank tiers, defaulting to `rank_county` on zero data
(return type `str | None` becomes `Option String`). -/
def infer_country_rank_key (c : Country) : Option String :=
  let n := (collectedProvinces c).length
  if n ≤ 0 then some "rank_county"
  else if n ≤ 2 then some "rank_county"
  else if n ≤ 5 then some "rank_duchy"
  else if n ≤ 12 then some "rank_kingdom"
  else some "rank_empire"

/-! ## Law-policy implementation time (`_format_time_to_implement`) -/

/-- The four duration fields of a `LawPolicy` that
`_format_time_to_implement` reads (non-negative counts from the parser). -/
structure LawPolicy where
  days : Nat
  weeks : Nat
  months : Nat
  years : Nat
deriving DecidableEq, Repr

/-- `_format_time_to_implement` from the source: carry day/week/month
overflow into years, render nothing when the result is exactly the implicit
default, otherwise list the non-zero components. -/
def _format_time_to_implement (policy : LawPolicy) (ignore_default_years : Nat) :
    String :=
  let days := policy.days
  let weeks := policy.weeks
  let months := policy.months
  let years := policy.years
  let years := if days ≥ 365 then years + days / 365 else years
  let days := if days ≥ 365 then days % 365 else days
  let years := if weeks ≥ 52 then years + weeks / 52 else years
  let weeks := if weeks ≥ 52 then weeks % 52 else weeks
  let years := if months ≥ 12 then years + months / 12 else years
  let months := if months ≥ 12 then months % 12 else months
  if years = ignore_default_years ∧ days = 0 ∧ weeks = 0 ∧ months = 0 then ""
  else
    pyJoin "\n"
      ((if years > 0 then [toString years ++ " years"] else []) ++
       (if months > 0 then [toString months ++ " months"] else []) ++
       (if weeks > 0 then [toString weeks ++ " weeks"] else []) ++
       (if days > 0 then [toString days ++ " days"] else []))

/-- The normalised year count the spec describes: each full 365 days, each
full 52 weeks and each full 12 months becomes one year. -/
def normYears (p : LawPolicy) : Nat :=
  p.years + p.days / 365 + p.weeks / 52 + p.months / 12

/-- Days left after carrying full years out. -/
def normDays (p : LawPolicy) : Nat := p.days % 365

/-- Weeks left after carrying full years out. -/
def normWeeks (p : LawPolicy) : Nat := p.weeks % 52

/-- Months left after carrying full years out. -/
def normMonths (p : LawPolicy) : Nat := p.months % 12

/-- The non-zero components of a normalised duration, in the output order
years, months, weeks, days. -/
def timeComponents (y m w d : Nat) : List String :=
  (if y > 0 then [toString y ++ " years"] else []) ++
  (if m > 0 then [toString m ++ " months"] else []) ++
  (if w > 0 then [toString w ++ " weeks"] else []) ++
  (if d > 0 then [toString d ++ " days"] else [])

/-! ## Section merging (`merge_multiple_sections`) and modifier sections -/

/-- The whitespace characters of Python's `str.strip`. -/
def pyIsSpace (c : Char) : Bool :=
  c == ' ' || c == '\t' || c == '\n' || c == '\r' || c == '\x0b' || c == '\x0c'

/-- `content.strip() == ''` from the source: true when every character is
whitespace (in particular for the empty string). -/
def pyStripIsEmpty (s : String) : Bool :=
  s.data.all pyIsSpace

/-- One loop iteration of `merge_multiple_sections` for a pair that is kept:
a bold header line (only when the header string is truthy, i.e. non-empty)
followed by the content, joined by a newline. -/
def renderSection (header content : String) : String :=
  pyJoin "\n" ((if header ≠ "" then ["'''" ++ header ++ ":'''"] else []) ++ [content])

/-- `merge_multiple_sections` from the source, on the `(header, content)`
pair list (a dict argument is first converted to exactly this list of its
items, in insertion order): pairs with blank content are skipped, the others
are rendered and joined by newlines. -/
def merge_multiple_sections (headers_with_content : List (String × String)) : String :=
  pyJoin "\n" (headers_with_content.filterMap fun hc =>
    if pyStripIsEmpty hc.2 then none else some (renderSection hc.1 hc.2))

/-! ## Modifier sections (`format_modifier_section`) -/

/-- A modifier as this file consumes it: only its wiki rendering is used. -/
structure Eu5Modifier where
  format_for_wiki : String
deriving DecidableEq, Repr

/-- Python attribute/dict lookup on an association list. -/
def alookup {α : Type} (l : List (String × α)) (k : String) : Option α :=
  (l.find? fun p => p.1 == k).map Prod.snd

/-- An entity as `format_modifier_section` sees it: a record of its
list-of-modifier attributes by name (`alookup … = none` models `hasattr`
being false). -/
structure ModifierEntity where
  modifier_sections : List (String × List Eu5Modifier)

/-- `format_modifier_section` from the source: a wiki list of the section's
modifiers when the entity has the attribute, `''` otherwise. -/
def format_modifier_section (entity : ModifierEntity) (sec : String) : String :=
  match alookup entity.modifier_sections sec with
  | some mods => create_wiki_list (mods.map Eu5Modifier.format_for_wiki)
  | none => ""

/-! ## Boolean table cells -/

/-- Python truthiness of an optional boolean: `None` is falsy. -/
def pyTruthy : Option Bool → Bool
  | none => false
  | some b => b

/-- The `'Gold'` cell of `get_law_policy_table`:
`'' if policy.gold is None else Yes-icon if policy.gold else No-icon`. -/
def law_policy_gold_cell : Option Bool → String
  | none => ""
  | some b =>
    if b then "[[File:Yes.png|20px|Gold]]" else "[[File:No.png|20px|Not Gold]]"

/-- The `'Manpower'` cell of `get_law_policy_table`, same tri-state shape. -/
def law_policy_manpower_cell : Option Bool → String
  | none => ""
  | some b =>
    if b then "[[File:Yes.png|20px|Manpower]]"
    else "[[File:No.png|20px|Not Manpower]]"

/-- The `'Allow Children'` cell of `generate_advances_table`: plain Python
truthiness, with no `is None` guard. -/
def advances_allow_children_cell (v : Option Bool) : String :=
  if pyTruthy v then "[[File:Yes.png|20px|Allow Children]]"
  else "[[File:No.png|20px|Not Allow Children]]"

/-! ## Building notes (`get_building_notes`) -/

/-- The attributes scanned by `get_building_notes`, one constructor per key
of its message table, in Python dict declaration order. -/
inductive BAttr
  | always_add_demands
  | AI_ignore_available_worker_flag
  | AI_optimization_flag_coastal
  | allow_wrong_startup
  | can_close
  | conversion_religion
  | forbidden_for_estates
  | increase_per_level_cost
  | in_empty
  | is_foreign
  | lifts_fog_of_war
  | need_good_relation
  | pop_size_created
  | stronger_power_projection
  | on_built
  | on_destroyed
deriving DecidableEq, Repr

/-- A Python attribute value as the notes code handles it: the comparison
with the declared default is value equality over heterogeneous data. -/
inductive PyVal
  | pynone
  | bool (b : Bool)
  | str (s : String)
  | int (n : Nat)
deriving DecidableEq, Repr

/-- Python `str()` as used by f-string interpolation of attribute values. -/
def pyValStr : PyVal → String
  | .pynone => "None"
  | .bool b => if b then "True" else "False"
  | .str s => s
  | .int n => toString n

/-- The external `AttributeFormatter` collaborator, consumed but not
reimplemented (the spec declares it an external interface): only the two
calls `get_building_notes` makes. -/
structure Formatter where
  add_red_green : PyVal → String
  format_effect : PyVal → String

/-- A building as `get_building_notes` reads it: its live attribute values
and its `default_values` table. -/
structure Building where
  attrs : BAttr → PyVal
  default_values : BAttr → PyVal

/-- The inline dict lookup `{"empty": "only", "any": "also", "owned":
"not"}[building.in_empty]`; `none` models the `KeyError` raised for any
other value. -/
def in_empty_word : PyVal → Option String
  | .str "empty" => some "only"
  | .str "any" => some "also"
  | .str "owned" => some "not"
  | _ => none

/-- The `messages_for_non_default_values` dict of `get_building_notes`, in
declaration order, with the f-string messages evaluated against the building
(as the source does when constructing the dict); `w` is the word selected by
the `in_empty` lookup. -/
def messages_for_non_default_values (fmt : Formatter) (b : Building) (w : String) :
    List (BAttr × String) :=
  [(.always_add_demands, "Demand does not scale with workers"),
   (.AI_ignore_available_worker_flag, "Build by AI even without available workers"),
   (.AI_optimization_flag_coastal, ""),
   (.allow_wrong_startup, "<tt>allow_wrong_startup</tt>"),
   (.can_close, "Cannot be closed"),
   (.conversion_religion,
     "Converts pops to " ++ pyValStr (b.attrs .conversion_religion)),
   (.forbidden_for_estates, "Cannot be build by estates"),
   (.increase_per_level_cost,
     "Cost changes by " ++ fmt.add_red_green (b.attrs .increase_per_level_cost) ++
       " per level"),
   (.in_empty, "Can " ++ w ++ " be built in empty locations"),
   (.is_foreign, "Foreign building"),
   (.lifts_fog_of_war, "Lifts fog of war"),
   (.need_good_relation, "Needs good relations when building in foreign provinces"),
   (.pop_size_created,
     "Creates " ++ pyValStr (b.attrs .pop_size_created) ++
       " pops when building(taken from the capital of the owner)"),
   (.stronger_power_projection,
     "Requires more power projection to construct in a foreign location"),
   (.on_built, "'''On Built:'''" ++ "\n" ++ fmt.format_effect (b.attrs .on_built)),
   (.on_destroyed,
     "'''On Destroyed:'''" ++ "\n" ++ fmt.format_effect (b.attrs .on_destroyed))]

/-- `get_building_notes` from the source: build the message dict (raising,
i.e. `none`, when the `in_empty` value is not a key of the inline word
dict), keep the message of every attribute whose live value differs from its
declared default, and render the kept messages as a wiki list. -/
def get_building_notes (fmt : Formatter) (b : Building) : Option String :=
  match in_empty_word (b.attrs .in_empty) with
  | Option.none => Option.none
  | some w =>
    some (create_wiki_list
      (((messages_for_non_default_values fmt b w).filter
          fun p => b.attrs p.1 != b.default_values p.1).map Prod.snd))

/-- The keys of the message table in declaration order, from
`always_add_demands` first to `on_destroyed` last. -/
def battrDeclarationOrder : List BAttr :=
  [.always_add_demands, .AI_ignore_available_worker_flag,
   .AI_optimization_flag_coastal, .allow_wrong_startup, .can_close,
   .conversion_religion, .forbidden_for_estates, .increase_per_level_cost,
   .in_empty, .is_foreign, .lifts_fog_of_war, .need_good_relation,
   .pop_size_created, .stronger_power_projection, .on_built, .on_destroyed]

/-- The attributes whose notes `get_building_notes` emits, in emission
order. -/
def emittedBuildingAttrs (fmt : Formatter) (b : Building) (w : String) : List BAttr :=
  ((messages_for_non_default_values fmt b w).filter
      fun p => b.attrs p.1 != b.default_values p.1).map Prod.fst

/-- Modelled from the spec: the `eu5lib` entity classes are not part of the
examined file; they initialise every schema attribute from `default_values`,
so reading an attribute the parsed data did not set yields its declared
default rather than raising (the spec's failure policy: a missing attribute
"silently yields an empty cell"). -/
structure RawBuilding where
  set_attrs : BAttr → Option PyVal
  default_values : BAttr → PyVal

/-- Attribute read on a building entity: the explicitly set value, else the
declared default. -/
def RawBuilding.getattr (rb : RawBuilding) (a : BAttr) : PyVal :=
  (rb.set_attrs a).getD (rb.default_values a)

/-- The attribute view `get_building_notes` works on. -/
def RawBuilding.toBuilding (rb : RawBuilding) : Building :=
  ⟨rb.getattr, rb.default_values⟩

/-! ## Country notes (`get_country_notes`) -/

/-- Python `str.capitalize`: first character upper-cased, the rest
lower-cased. -/
def pyCapitalize (s : String) : String :=
  match s.data with
  | [] => ""
  | c :: t => ⟨c.toUpper :: t.map Char.toLower⟩

/-- Helper for `pyTitle`: the boolean carries whether the previous character
was alphabetic. -/
def pyTitleAux : Bool → List Char → List Char
  | _, [] => []
  | prevAlpha, c :: rest =>
    (if c.isAlpha then (if prevAlpha then c.toLower else c.toUpper) else c) ::
      pyTitleAux c.isAlpha rest

/-- Python `str.title`: the first letter of every alphabetic run upper-cased,
the following letters lower-cased. -/
def pyTitle (s : String) : String :=
  ⟨pyTitleAux false s.data⟩

/-- Python `str.lower` (over the characters, so that concrete instances
evaluate inside the kernel). -/
def pyLower (s : String) : String :=
  ⟨s.data.map Char.toLower⟩

/-- A subject type as the notes code consumes it: only
`get_wiki_link_with_icon()` is used. -/
structure SubjectType where
  wiki_link_with_icon : String

/-- A country record from `parser.countries`, used for the overlord link. -/
structure CountryRef where
  wiki_link_with_icon : String

/-- An international organization entity; only its icon link is used. -/
structure InternationalOrganization where
  wiki_link_with_icon : String

/-- A law or law policy; only its display name is used. -/
structure LawLike where
  display_name : String

/-- A formable-country definition; only its target tag is used. -/
structure FormableCountry where
  country_name : String

/-- `parser.diplomacy_relationships`: the four nested relationship tables
the notes code indexes (Python dicts become association lists). -/
structure DiplomacyRelationships where
  overlords : List (String × String)
  subject_types : List (String × String)
  io_members : List (String × List String)
  io_member_laws : List (String × List (String × List String))

/-- The parser collections `get_country_notes` reads; `none` for
`diplomacy_relationships` models `hasattr(self.parser, …)` being false. -/
structure Eu5ParserTables where
  formable_countries : List FormableCountry
  diplomacy_relationships : Option DiplomacyRelationships
  subject_types : List (String × SubjectType)
  countries : List (String × CountryRef)
  international_organizations : List (String × InternationalOrganization)
  law_policies : List (String × LawLike)
  laws : List (String × LawLike)

/-- `hasattr(country, a) and len(getattr(country, a)) > 0` for an ownership
attribute. -/
def locListTruthy : Option (List Location) → Bool
  | Option.none => false
  | some l => decide (l.length > 0)

/-- `has_conquered_cores` from `get_country_notes`. -/
def has_conquered_cores (c : Country) : Bool :=
  locListTruthy c.our_cores_conquered_by_others

/-- `has_owned_cores` from `get_country_notes`: the OR over the seven
ownership attributes, in source order. -/
def has_owned_cores (c : Country) : Bool :=
  locListTruthy c.own_control_core || locListTruthy c.own_core ||
  locListTruthy c.own_conquered || locListTruthy c.own_control_conquered ||
  locListTruthy c.own_control_integrated || locListTruthy c.own_control_colony ||
  locListTruthy c.control

/-- The subject/overlord block of `get_country_notes`: at most one note. -/
def subject_note_list (p : Eu5ParserTables) (dr : DiplomacyRelationships)
    (cname : String) : List String :=
  match alookup dr.overlords cname with
  | Option.none => []
  | some overlord_tag =>
    let subject_type := (alookup dr.subject_types cname).getD "subject"
    let subject_display :=
      match alookup p.subject_types subject_type with
      | some st => st.wiki_link_with_icon
      | Option.none => pyCapitalize subject_type
    let overlord_flag :=
      match alookup p.countries overlord_tag with
      | some oc => oc.wiki_link_with_icon
      | Option.none => "\x7b\x7bflag|" ++ overlord_tag ++ "\x7d\x7d"
    [subject_display ++ " of " ++ overlord_flag]

/-- The note emitted for the Hindu-branch organization, built from the
resolved branch display name. -/
def hindu_branch_note (branch_display : String) : String :=
  "Member of [[File:IO " ++ pyLower branch_display ++
    ".png|24px]] [[International organization#Hindu Branches|" ++
    branch_display ++ "]]"

/-- The branch display name resolution of the Hindu-branch special case:
prefer a law-policy display name, then a law display name, then the
title-cased raw key. -/
def branch_display_for (p : Eu5ParserTables) (branch_key : String) : String :=
  match alookup p.law_policies branch_key with
  | some lp => lp.display_name
  | Option.none =>
    match alookup p.laws branch_key with
    | some l => l.display_name
    | Option.none => pyTitle (branch_key.replace "_" " ")

/-- One iteration of the membership loop of `get_country_notes`: the notes
contributed by a single organization name. -/
def io_note (p : Eu5ParserTables) (dr : DiplomacyRelationships)
    (cname io_name : String) : List String :=
  if pyLower io_name == "catholic_church" || pyLower io_name == "papacy" then []
  else
    match alookup p.international_organizations io_name with
    | some io_obj =>
      if pyLower io_name == "hindu_branch" then
        let branch_laws :=
          (alookup ((alookup dr.io_member_laws cname).getD []) io_name).getD []
        let branch_display : Option String :=
          match branch_laws with
          | [] => Option.none
          | branch_key :: _ => some (branch_display_for p branch_key)
        match branch_display with
        | some bd =>
          if bd ≠ "" then [hindu_branch_note bd]
          else ["Member of " ++ io_obj.wiki_link_with_icon]
        | Option.none => ["Member of " ++ io_obj.wiki_link_with_icon]
      else ["Member of " ++ io_obj.wiki_link_with_icon]
    | Option.none => ["Member of \x7b\x7biconify|" ++ io_name ++ "\x7d\x7d"]

/-- The fixed formable-country note string. -/
def formable_note : String :=
  "[[File:Country rank.png|24px|link=Formable countries]] [[Formable countries|Formable Country]]"

/-- `get_country_notes` from the source (the Python function also returns a
second tuple component `nested_details`, which is always `None` and is
dropped here): existence note, then subject note, then one note per IO
membership, then — deferred so that it appears beneath the others — the
formable note. -/
def get_country_notes (p : Eu5ParserTables) (c : Country) : List String :=
  let is_formable := p.formable_countries.any fun fc => fc.country_name == c.name
  let notes : List String :=
    if has_conquered_cores c && !has_owned_cores c
    then ["Does not exist in 1337"] else []
  let notes :=
    match p.diplomacy_relationships with
    | Option.none => notes
    | some dr =>
      let notes := notes ++ subject_note_list p dr c.name
      match alookup dr.io_members c.name with
      | Option.none => notes
      | some io_names => notes ++ io_names.flatMap (io_note p dr c.name)
  if is_formable then notes ++ [formable_note] else notes

/-- The existence-note block of `get_country_notes`, as its own list. -/
def existence_note_list (c : Country) : List String :=
  if has_conquered_cores c && !has_owned_cores c
  then ["Does not exist in 1337"] else []

/-- The subject-note block including the `diplomacy_relationships` guard. -/
def subject_notes_of (p : Eu5ParserTables) (c : Country) : List String :=
  match p.diplomacy_relationships with
  | Option.none => []
  | some dr => subject_note_list p dr c.name

/-- The membership-note block including the guards. -/
def membership_note_list (p : Eu5ParserTables) (c : Country) : List String :=
  match p.diplomacy_relationships with
  | Option.none => []
  | some dr =>
    match alookup dr.io_members c.name with
    | Option.none => []
    | some io_names => io_names.flatMap (io_note p dr c.name)

/-- The formable-note block. -/
def formable_note_list (p : Eu5ParserTables) (c : Country) : List String :=
  if p.formable_countries.any (fun fc => fc.country_name == c.name)
  then [formable_note] else []

/-! ## Concept sections (`get_concept_section`) -/

/-- An alias of a game concept; only its display name is used. -/
structure ConceptAlias where
  display_name : String

/-- A game concept as `get_concept_section` reads it.  The source's `alias`
attribute is `alias_list` here (`alias` is reserved in Lean); the
`{concept}` interpolation calls the entity's `str()`, which for these
nameable entities is the display name. -/
structure Eu5GameConcept where
  name : String
  display_name : String
  alias_list : List ConceptAlias
  description : String

/-- `get_concept_section_contents` from the source: the localised
description text (`fltext` is the external
`formatter.format_localization_text`). -/
def get_concept_section_contents (fltext : String → List String → String)
    (all_concept_names : List String) (concept : Eu5GameConcept) : String :=
  fltext concept.description all_concept_names

/-- `get_concept_section` from the source: the heading, an optional hatnote
listing aliases, and the description wrapped in
`<section begin=autogenerated_concept_KEY/> … <section end=autogenerated_concept_KEY/>`
markers keyed by the concept's stable name. -/
def get_concept_section (fltext : String → List String → String)
    (all_concept_names : List String) (concept : Eu5GameConcept) : List String :=
  let result := ["=== " ++ concept.display_name ++ " ==="]
  let result := result ++
    (if !concept.alias_list.isEmpty then
      let alias_display_names := concept.alias_list.map ConceptAlias.display_name
      ["\x7b\x7bhatnote|Aliases: " ++
         pyJoin ", " (alias_display_names.map fun a => fltext a all_concept_names) ++
         "\x7d\x7d" ++ "\x7b\x7banchor|" ++
         pyJoin "\x7d\x7d\x7b\x7banchor|" alias_display_names ++ "\x7d\x7d"]
    else [])
  result ++
    ["<section begin=autogenerated_concept_" ++ concept.name ++ "/>" ++
       get_concept_section_contents fltext all_concept_names concept ++
       "<section end=autogenerated_concept_" ++ concept.name ++ "/>"]

/-! ## Witness data and derived lists -/

/-- The sections `merge_multiple_sections` keeps, already rendered. -/
def keptSections (l : List (String × String)) : List String :=
  l.filterMap fun hc =>
    if pyStripIsEmpty hc.2 then none else some (renderSection hc.1 hc.2)

/-- Default values used by the witness buildings. -/
def exampleDefaults : BAttr → PyVal
  | .in_empty => .str "owned"
  | .pop_size_created => .int 0
  | .conversion_religion => .pynone
  | _ => .bool false

/-- Witness attribute values: only `pop_size_created` differs from its
default. -/
def exampleAttrs : BAttr → PyVal
  | .pop_size_created => .int 5
  | a => exampleDefaults a

/-- A fixed stand-in for the external formatter in witnesses. -/
def exampleFormatter : Formatter := ⟨fun _ => "#rg#", fun _ => "#eff#"⟩

/-- The witness building: all defaults except five pops created. -/
def exampleBuilding : Building := ⟨exampleAttrs, exampleDefaults⟩

/-- The witness building entity with no attribute set by parsed data. -/
def exampleRawBuilding : RawBuilding := ⟨fun _ => Option.none, exampleDefaults⟩

/-- Witness diplomacy tables: BLA is a papacy, Hindu-branch and HRE member
with one branch law. -/
def exampleDr : DiplomacyRelationships :=
  { overlords := [("BLA", "OVR")],
    subject_types := [("BLA", "march")],
    io_members := [("BLA", ["papacy", "hindu_branch", "hre"])],
    io_member_laws := [("BLA", [("hindu_branch", ["vaishnava_branch"])])] }

/-- Witness parser collections. -/
def exampleTables : Eu5ParserTables :=
  { formable_countries := [⟨"BLA"⟩],
    diplomacy_relationships := some exampleDr,
    subject_types := [],
    countries := [],
    international_organizations :=
      [("hindu_branch", ⟨"[[File:IO hindu.png|24px]]"⟩), ("hre", ⟨"[[HRE]]"⟩)],
    law_policies := [("vaishnava_branch", ⟨"Vaishnavism"⟩)],
    laws := [] }

/-- Witness country: cores were conquered by others, nothing owned, tag
matches the formable definition. -/
def exampleCountryB : Country :=
  { name := "BLA", our_cores_conquered_by_others := some [⟨some 7⟩] }

/-! ## Theorems for rank inference and time normalisation -/

/-- C1: `infer_country_rank_key` classifies a country by the number of
distinct provinces collected over the fixed ownership attribute list: counts
0–2 give `rank_county`, 3–5 give `rank_duchy`, 6–12 give `rank_kingdom`,
more than 12 gives `rank_empire`; in particular the result is never `none`,
so the zero-province case yields the smallest tier rather than an error. -/
theorem infer_country_rank_key_tiers (c : Country) :
    (infer_country_rank_key c).isSome = true ∧
    ((collectedProvinces c).length ≤ 2 →
      infer_country_rank_key c = some "rank_county") ∧
    (3 ≤ (collectedProvinces c).length → (collectedProvinces c).length ≤ 5 →
      infer_country_rank_key c = some "rank_duchy") ∧
    (6 ≤ (collectedProvinces c).length → (collectedProvinces c).length ≤ 12 →
      infer_country_rank_key c = some "rank_kingdom") ∧
    (12 < (collectedProvinces c).length →
      infer_country_rank_key c = some "rank_empire") := by
  refine ⟨?_, ?_, ?_, ?_, ?_⟩ <;> intros <;> simp only [infer_country_rank_key] <;>
    (repeat' split) <;> first | rfl | (exfalso; omega)

/-- Witness for C1: a country owning no provinces at all is ranked
`rank_county`, and one with four distinct provinces spread over two ownership
attributes is ranked `rank_duchy`. -/
theorem infer_country_rank_key_tiers_witness :
    infer_country_rank_key { name := "AAA" } = some "rank_county" ∧
    infer_country_rank_key
      { name := "BBB",
        own_core := some [⟨some 1⟩, ⟨some 2⟩, ⟨some 1⟩],
        control := some [⟨some 3⟩, ⟨none⟩, ⟨some 4⟩] } = some "rank_duchy" :=
  ⟨(infer_country_rank_key_tiers { name := "AAA" }).2.1 (by decide),
   (infer_country_rank_key_tiers _).2.2.1 (by decide) (by decide)⟩

/-- `_format_time_to_implement` in terms of the normalised components: the
guarded carries of the source equal the plain quotient/remainder values. -/
theorem format_time_norm_eq (p : LawPolicy) :
    _format_time_to_implement p 2 =
      if normYears p = 2 ∧ normDays p = 0 ∧ normWeeks p = 0 ∧ normMonths p = 0
      then ""
      else pyJoin "\n"
        (timeComponents (normYears p) (normMonths p) (normWeeks p) (normDays p)) := by
  have hdy : (if p.days ≥ 365 then p.years + p.days / 365 else p.years) =
      p.years + p.days / 365 := by split <;> omega
  have hdd : (if p.days ≥ 365 then p.days % 365 else p.days) = p.days % 365 := by
    split <;> omega
  have hwy : (if p.weeks ≥ 52 then p.years + p.days / 365 + p.weeks / 52
        else p.years + p.days / 365) = p.years + p.days / 365 + p.weeks / 52 := by
    split <;> omega
  have hww : (if p.weeks ≥ 52 then p.weeks % 52 else p.weeks) = p.weeks % 52 := by
    split <;> omega
  have hmy : (if p.months ≥ 12 then
        p.years + p.days / 365 + p.weeks / 52 + p.months / 12
        else p.years + p.days / 365 + p.weeks / 52) =
      p.years + p.days / 365 + p.weeks / 52 + p.months / 12 := by
    split <;> omega
  have hmm : (if p.months ≥ 12 then p.months % 12 else p.months) = p.months % 12 := by
    split <;> omega
  simp only [_format_time_to_implement, normYears, normDays, normWeeks, normMonths,
    timeComponents, hdy, hdd, hwy, hww, hmy, hmm]

/-! ## Helper lemmas about `pyJoin` and rendered sections -/

theorem str_length_pos {s : String} (h : s ≠ "") : 0 < s.length := by
  cases s with
  | mk l =>
    cases l with
    | nil => simp at h
    | cons c t => simp [String.length]

theorem append_ne_empty_right {a b : String} (hb : b ≠ "") : a ++ b ≠ "" := by
  intro h
  have hl := congrArg String.length h
  simp at hl
  have := str_length_pos hb
  omega

theorem pyJoin_ne_empty {sep x : String} {xs : List String} (hx : x ≠ "") :
    pyJoin sep (x :: xs) ≠ "" := by
  cases xs with
  | nil => simpa [pyJoin] using hx
  | cons y t =>
    show x ++ sep ++ pyJoin sep (y :: t) ≠ ""
    intro h
    have hl := congrArg String.length h
    simp at hl
    have := str_length_pos hx
    omega

theorem pyJoin_eq_empty_iff {sep : String} {xs : List String}
    (h : ∀ x ∈ xs, x ≠ "") : pyJoin sep xs = "" ↔ xs = [] := by
  cases xs with
  | nil => simp [pyJoin]
  | cons x t =>
    constructor
    · intro hj
      exact absurd hj (pyJoin_ne_empty (h x (by simp)))
    · intro hh
      simp at hh

theorem pyJoin_append (sep : String) (xs ys : List String) (hx : xs ≠ [])
    (hy : ys ≠ []) :
    pyJoin sep (xs ++ ys) = pyJoin sep xs ++ sep ++ pyJoin sep ys := by
  induction xs with
  | nil => exact absurd rfl hx
  | cons a t ih =>
    cases t with
    | nil =>
      cases ys with
      | nil => exact absurd rfl hy
      | cons b u => simp [pyJoin, String.append_assoc]
    | cons a' t' =>
      have h := ih (by simp)
      simp only [List.cons_append] at h ⊢
      show a ++ sep ++ pyJoin sep (a' :: (t' ++ ys)) =
        a ++ sep ++ pyJoin sep (a' :: t') ++ sep ++ pyJoin sep ys
      rw [h]
      simp [String.append_assoc]

theorem mem_ite_singleton {α : Type} {c : Prop} [Decidable c] {a x : α}
    (hx : x ∈ (if c then [a] else [])) : x = a := by
  split at hx <;> simp_all

theorem ite_singleton_eq_nil {α : Type} {c : Prop} [Decidable c] {a : α}
    (h : (if c then [a] else []) = []) : ¬c := by
  intro hc
  simp [hc] at h

theorem timeComponents_ne_empty {y m w d : Nat} :
    ∀ x ∈ timeComponents y m w d, x ≠ "" := by
  intro x hx
  unfold timeComponents at hx
  simp only [List.mem_append] at hx
  rcases hx with ((hx | hx) | hx) | hx <;>
    rw [mem_ite_singleton hx] <;> exact append_ne_empty_right (by decide)

theorem timeComponents_eq_nil_iff {y m w d : Nat} :
    timeComponents y m w d = [] ↔ (y = 0 ∧ m = 0 ∧ w = 0 ∧ d = 0) := by
  constructor
  · intro h
    unfold timeComponents at h
    rw [List.append_eq_nil, List.append_eq_nil, List.append_eq_nil] at h
    obtain ⟨⟨⟨h1, h2⟩, h3⟩, h4⟩ := h
    have hy := ite_singleton_eq_nil h1
    have hm := ite_singleton_eq_nil h2
    have hw := ite_singleton_eq_nil h3
    have hd := ite_singleton_eq_nil h4
    exact ⟨by omega, by omega, by omega, by omega⟩
  · rintro ⟨rfl, rfl, rfl, rfl⟩
    rfl

/-- C2 counterexample: a policy with all four duration fields zero renders
as the empty string even though its normalised value is not two years with
zero days, weeks and months. -/
theorem format_time_zero_policy_empty :
    _format_time_to_implement ⟨0, 0, 0, 0⟩ 2 = "" ∧
    ¬(normYears ⟨0, 0, 0, 0⟩ = 2 ∧ normDays ⟨0, 0, 0, 0⟩ = 0 ∧
      normWeeks ⟨0, 0, 0, 0⟩ = 0 ∧ normMonths ⟨0, 0, 0, 0⟩ = 0) := by
  decide

/-- C2 amended: `_format_time_to_implement` with `ignore_default_years = 2`
first carries day/week/month overflow into years (365 days, 52 weeks or 12
months per year) and then returns the empty string exactly when the
normalised value is either the implicit default (2 years, nothing else) or
entirely zero; otherwise it lists the non-zero normalised components in the
order years, months, weeks, days.  In particular `days = 400` normalises to
one year and 35 days. -/
theorem format_time_to_implement_spec (p : LawPolicy) :
    (_format_time_to_implement p 2 =
      if normYears p = 2 ∧ normDays p = 0 ∧ normWeeks p = 0 ∧ normMonths p = 0
      then ""
      else pyJoin "\n"
        (timeComponents (normYears p) (normMonths p) (normWeeks p) (normDays p))) ∧
    (_format_time_to_implement p 2 = "" ↔
      ((normYears p = 2 ∨ normYears p = 0) ∧ normDays p = 0 ∧
        normWeeks p = 0 ∧ normMonths p = 0)) ∧
    normYears ⟨400, 0, 0, 0⟩ = 1 ∧ normDays ⟨400, 0, 0, 0⟩ = 35 ∧
    _format_time_to_implement ⟨400, 0, 0, 0⟩ 2 = "1 years\n35 days" := by
  refine ⟨format_time_norm_eq p, ?_, by decide, by decide, by decide⟩
  rw [format_time_norm_eq p]
  split
  case isTrue hc =>
    exact ⟨fun _ => ⟨Or.inl hc.1, hc.2.1, hc.2.2.1, hc.2.2.2⟩, fun _ => rfl⟩
  case isFalse hc =>
    rw [pyJoin_eq_empty_iff timeComponents_ne_empty, timeComponents_eq_nil_iff]
    constructor
    · rintro ⟨hy, hm, hw, hd⟩
      exact ⟨Or.inr hy, hd, hw, hm⟩
    · rintro ⟨hy | hy, hd, hw, hm⟩
      · exact absurd ⟨hy, hd, hw, hm⟩ hc
      · exact ⟨hy, hm, hw, hd⟩

theorem merge_eq_pyJoin_keptSections (l : List (String × String)) :
    merge_multiple_sections l = pyJoin "\n" (keptSections l) := rfl

theorem renderSection_ne_empty {header content : String}
    (hc : pyStripIsEmpty content = false) : renderSection header content ≠ "" := by
  have hcne : content ≠ "" := by
    intro h
    subst h
    simp [pyStripIsEmpty] at hc
  unfold renderSection
  split
  · show pyJoin "\n" ["'''" ++ header ++ ":'''", content] ≠ ""
    show "'''" ++ header ++ ":'''" ++ "\n" ++ content ≠ ""
    exact append_ne_empty_right hcne
  · simpa [pyJoin] using hcne

theorem keptSections_ne_empty {l : List (String × String)} :
    ∀ s ∈ keptSections l, s ≠ "" := by
  intro s hs
  rw [keptSections, List.mem_filterMap] at hs
  obtain ⟨p, _, hps⟩ := hs
  by_cases hb : pyStripIsEmpty p.2
  · simp [hb] at hps
  · simp [hb] at hps
    exact hps ▸ renderSection_ne_empty (by simpa using hb)

theorem keptSections_append (l₁ l₂ : List (String × String)) :
    keptSections (l₁ ++ l₂) = keptSections l₁ ++ keptSections l₂ :=
  List.filterMap_append l₁ l₂ _

/-- C10: `merge_multiple_sections` omits every pair with blank content
(header line included), renders a kept pair as a bold header line (only for a
non-empty header) followed by its content, joins the rendered pairs with
newlines in input order, and returns the empty string exactly when every
content is blank. -/
theorem merge_multiple_sections_spec :
    (∀ l : List (String × String),
      (merge_multiple_sections l = "" ↔ ∀ p ∈ l, pyStripIsEmpty p.2 = true)) ∧
    (∀ (l₁ l₂ : List (String × String)) (h c : String),
      pyStripIsEmpty c = true →
      merge_multiple_sections (l₁ ++ (h, c) :: l₂) =
        merge_multiple_sections (l₁ ++ l₂)) ∧
    (∀ h c : String, pyStripIsEmpty c = false → h ≠ "" →
      merge_multiple_sections [(h, c)] = "'''" ++ h ++ ":'''" ++ "\n" ++ c) ∧
    (∀ c : String, pyStripIsEmpty c = false →
      merge_multiple_sections [("", c)] = c) ∧
    (∀ l₁ l₂ : List (String × String),
      merge_multiple_sections (l₁ ++ l₂) =
        if merge_multiple_sections l₁ = "" then merge_multiple_sections l₂
        else if merge_multiple_sections l₂ = "" then merge_multiple_sections l₁
        else merge_multiple_sections l₁ ++ "\n" ++ merge_multiple_sections l₂) := by
  refine ⟨?_, ?_, ?_, ?_, ?_⟩
  · intro l
    rw [merge_eq_pyJoin_keptSections, pyJoin_eq_empty_iff keptSections_ne_empty,
      keptSections, List.filterMap_eq_nil_iff]
    constructor
    · intro h p hp
      have := h p hp
      by_cases hb : pyStripIsEmpty p.2
      · exact hb
      · simp [hb] at this
    · intro h p hp
      simp [h p hp]
  · intro l₁ l₂ h c hc
    rw [merge_eq_pyJoin_keptSections, merge_eq_pyJoin_keptSections,
      keptSections_append, keptSections_append]
    congr 1
    simp [keptSections, hc]
  · intro h c hc hh
    rw [merge_eq_pyJoin_keptSections]
    simp only [keptSections, List.filterMap, hc, renderSection, hh]
    simp [pyJoin, hc, hh, renderSection]
  · intro c hc
    rw [merge_eq_pyJoin_keptSections]
    simp [keptSections, pyJoin, hc, renderSection]
  · intro l₁ l₂
    rw [merge_eq_pyJoin_keptSections, merge_eq_pyJoin_keptSections,
      merge_eq_pyJoin_keptSections, keptSections_append]
    by_cases h₁ : keptSections l₁ = []
    · rw [(pyJoin_eq_empty_iff keptSections_ne_empty).mpr h₁]
      simp [h₁]
    · have hne₁ : pyJoin "\n" (keptSections l₁) ≠ "" := by
        rw [Ne, pyJoin_eq_empty_iff keptSections_ne_empty]
        exact h₁
      rw [if_neg hne₁]
      by_cases h₂ : keptSections l₂ = []
      · rw [if_pos ((pyJoin_eq_empty_iff keptSections_ne_empty).mpr h₂)]
        simp [h₂]
      · have hne₂ : pyJoin "\n" (keptSections l₂) ≠ "" := by
          rw [Ne, pyJoin_eq_empty_iff keptSections_ne_empty]
          exact h₂
        rw [if_neg hne₂]
        exact pyJoin_append _ _ _ h₁ h₂

/-- Witness for C10: a kept pair renders as a bold header line plus content,
and a list whose only content is whitespace merges to the empty string. -/
theorem merge_multiple_sections_spec_witness :
    merge_multiple_sections [("H", "body")] = "'''" ++ "H" ++ ":'''" ++ "\n" ++ "body" ∧
    merge_multiple_sections [("X", " \n")] = "" :=
  ⟨merge_multiple_sections_spec.2.2.1 "H" "body" (by decide) (by decide),
   (merge_multiple_sections_spec.1 [("X", " \n")]).mpr (by decide)⟩

/-- C4 counterexample: in `generate_advances_table` the boolean
`allow_children` cell has no `is None` guard, so a `None` underlying value
renders as the `'No'` icon markup rather than the empty string. -/
theorem advances_allow_children_none_not_empty :
    advances_allow_children_cell none = "[[File:No.png|20px|Not Allow Children]]" ∧
    ¬ advances_allow_children_cell none = "" := by
  constructor
  · rfl
  · decide

/-- C4 amended: in `get_law_policy_table` boolean fields are tri-state
(`None` renders empty, `True` the Yes icon whose alt label is the field
label, `False` the No icon whose alt label is `'Not '` plus the field
label); in `generate_advances_table` the `allow_children` cell is rendered
by plain truthiness with no `None` guard, so `None` renders like `False`
as the No icon markup. -/
theorem bool_cell_rendering :
    law_policy_gold_cell none = "" ∧
    law_policy_gold_cell (some true) = "[[File:Yes.png|20px|Gold]]" ∧
    law_policy_gold_cell (some false) = "[[File:No.png|20px|" ++ "Not " ++ "Gold]]" ∧
    law_policy_manpower_cell none = "" ∧
    law_policy_manpower_cell (some true) = "[[File:Yes.png|20px|Manpower]]" ∧
    law_policy_manpower_cell (some false) =
      "[[File:No.png|20px|" ++ "Not " ++ "Manpower]]" ∧
    advances_allow_children_cell (some true) =
      "[[File:Yes.png|20px|Allow Children]]" ∧
    advances_allow_children_cell (some false) =
      "[[File:No.png|20px|" ++ "Not " ++ "Allow Children]]" ∧
    advances_allow_children_cell none = advances_allow_children_cell (some false) := by
  refine ⟨rfl, rfl, by decide, rfl, rfl, by decide, rfl, by decide, rfl⟩

/-! ## Theorems about the building notes table -/

theorem mem_map_fst_filter_eq {α β : Type} (l : List (α × β))
    (pred : α × β → Bool) (q : α → Bool) (hpq : ∀ p, pred p = q p.1) (a : α) :
    (a ∈ (l.filter pred).map Prod.fst) ↔
      (a ∈ l.map Prod.fst ∧ q a = true) := by
  induction l with
  | nil => simp
  | cons p t ih =>
    by_cases hq : q p.1 <;> by_cases ha : a = p.1 <;>
      simp [List.filter_cons, hpq, hq, ih, ha]

theorem emittedBuildingAttrs_mem (fmt : Formatter) (b : Building) (w : String)
    (a : BAttr) :
    a ∈ emittedBuildingAttrs fmt b w ↔ b.attrs a ≠ b.default_values a := by
  rw [emittedBuildingAttrs,
    mem_map_fst_filter_eq _ _ (fun x => b.attrs x != b.default_values x)
      (fun p => rfl)]
  have hmem : a ∈ (messages_for_non_default_values fmt b w).map Prod.fst := by
    cases a <;> simp [messages_for_non_default_values]
  simp [hmem, bne_iff_ne]

/-- C3: `get_building_notes` emits the note of an attribute exactly when the
building's live value differs from that attribute's entry in
`default_values` (value equality, not truthiness), the emitted notes keep
the declaration order of the message table (`always_add_demands` first
through `on_destroyed` last), and the result is the wiki list of the kept
messages. -/
theorem get_building_notes_spec (fmt : Formatter) (b : Building) (w : String)
    (hw : in_empty_word (b.attrs .in_empty) = some w) :
    (∀ a : BAttr,
      a ∈ emittedBuildingAttrs fmt b w ↔ b.attrs a ≠ b.default_values a) ∧
    List.Sublist (emittedBuildingAttrs fmt b w) battrDeclarationOrder ∧
    get_building_notes fmt b =
      some (create_wiki_list
        (((messages_for_non_default_values fmt b w).filter
            fun p => b.attrs p.1 != b.default_values p.1).map Prod.snd)) := by
  refine ⟨fun a => emittedBuildingAttrs_mem fmt b w a, ?_, ?_⟩
  · have h1 : List.Sublist (emittedBuildingAttrs fmt b w)
        ((messages_for_non_default_values fmt b w).map Prod.fst) :=
      (List.filter_sublist _).map Prod.fst
    have h2 : (messages_for_non_default_values fmt b w).map Prod.fst =
        battrDeclarationOrder := rfl
    rwa [h2] at h1
  · simp [get_building_notes, hw]

/-- Witness for C3: on a building whose only non-default attribute is
`pop_size_created = 5`, exactly the pop note is emitted. -/
theorem get_building_notes_spec_witness :
    in_empty_word (exampleBuilding.attrs .in_empty) = some "not" ∧
    (BAttr.pop_size_created ∈
        emittedBuildingAttrs exampleFormatter exampleBuilding "not" ↔
      exampleBuilding.attrs .pop_size_created ≠
        exampleBuilding.default_values .pop_size_created) ∧
    get_building_notes exampleFormatter exampleBuilding =
      some "* Creates 5 pops when building(taken from the capital of the owner)" := by
  refine ⟨rfl,
    (get_building_notes_spec exampleFormatter exampleBuilding "not" rfl).1 _, ?_⟩
  rw [(get_building_notes_spec exampleFormatter exampleBuilding "not" rfl).2.2]
  rfl

/-- C5: a cell whose attribute the entity lacks renders empty instead of
raising: `format_modifier_section` returns `''` when the entity has no
attribute of the section's name, and `get_building_notes` still returns a
result on a building entity with an unset scheduled attribute, emitting no
note for it (entity attribute access falls back to the declared default;
see `RawBuilding`). -/
theorem missing_attribute_renders_empty :
    (∀ (e : ModifierEntity) (sec : String),
      alookup e.modifier_sections sec = Option.none →
      format_modifier_section e sec = "") ∧
    (∀ (fmt : Formatter) (rb : RawBuilding) (w : String) (a : BAttr),
      in_empty_word (rb.getattr .in_empty) = some w →
      rb.set_attrs a = Option.none →
      (get_building_notes fmt rb.toBuilding).isSome = true ∧
      a ∉ emittedBuildingAttrs fmt rb.toBuilding w) := by
  constructor
  · intro e sec h
    simp [format_modifier_section, h]
  · intro fmt rb w a hw ha
    have hget : rb.toBuilding.attrs a = rb.toBuilding.default_values a := by
      simp [RawBuilding.toBuilding, RawBuilding.getattr, ha]
    constructor
    · have hw' : in_empty_word (rb.toBuilding.attrs .in_empty) = some w := hw
      simp [get_building_notes, hw']
    · rw [emittedBuildingAttrs_mem]
      simp [hget]

/-- Witness for C5: an entity without the requested modifier section renders
an empty cell, and a building with `can_close` unset emits no `can_close`
note yet still produces a notes cell. -/
theorem missing_attribute_renders_empty_witness :
    format_modifier_section ⟨[]⟩ "country_modifier" = "" ∧
    (get_building_notes exampleFormatter exampleRawBuilding.toBuilding).isSome = true ∧
    BAttr.can_close ∉
      emittedBuildingAttrs exampleFormatter exampleRawBuilding.toBuilding "not" :=
  ⟨missing_attribute_renders_empty.1 ⟨[]⟩ "country_modifier" rfl,
   (missing_attribute_renders_empty.2 exampleFormatter exampleRawBuilding "not"
      .can_close rfl rfl).1,
   (missing_attribute_renders_empty.2 exampleFormatter exampleRawBuilding "not"
      .can_close rfl rfl).2⟩

/-! ## Theorems about country notes -/

theorem get_country_notes_decompose (p : Eu5ParserTables) (c : Country) :
    get_country_notes p c =
      existence_note_list c ++ subject_notes_of p c ++
        membership_note_list p c ++ formable_note_list p c := by
  unfold get_country_notes existence_note_list subject_notes_of
    membership_note_list formable_note_list
  cases hdr : p.diplomacy_relationships with
  | none =>
    cases hf : p.formable_countries.any (fun fc => fc.country_name == c.name) <;>
      simp [hf]
  | some dr =>
    cases hio : alookup dr.io_members c.name <;>
      cases hf : p.formable_countries.any (fun fc => fc.country_name == c.name) <;>
        simp [hio, hf]

theorem mid_of_ne_exist_note (a b : String) :
    a ++ " of " ++ b ≠ "Does not exist in 1337" := by
  intro h
  have h2 : a.data ++ (" of ").data ++ b.data = ("Does not exist in 1337").data := by
    have := congrArg String.data h
    simpa using this
  have hinf : List.IsInfix (" of ").data (("Does not exist in 1337").data) :=
    ⟨a.data, b.data, h2⟩
  revert hinf
  decide

theorem member_prefix_ne_exist_note (r : String) :
    "Member of " ++ r ≠ "Does not exist in 1337" := by
  intro h
  have h2 : ("Member of " ++ r).data = ("Does not exist in 1337").data :=
    congrArg String.data h
  rw [String.data_append] at h2
  rw [show ("Member of ").data = 'M' :: "ember of ".data from rfl,
    show ("Does not exist in 1337").data = 'D' :: "oes not exist in 1337".data
      from rfl] at h2
  simp at h2

theorem subject_note_shape {p : Eu5ParserTables} {dr : DiplomacyRelationships}
    {cname s : String} (hs : s ∈ subject_note_list p dr cname) :
    ∃ a b, s = a ++ " of " ++ b := by
  unfold subject_note_list at hs
  split at hs
  · simp at hs
  · simp only [List.mem_singleton] at hs
    exact ⟨_, _, hs⟩

theorem hindu_branch_note_shape (bd : String) :
    ∃ r, hindu_branch_note bd = "Member of " ++ r := by
  refine ⟨"[[File:IO " ++ (pyLower bd ++
    (".png|24px]] [[International organization#Hindu Branches|" ++
      (bd ++ "]]"))), ?_⟩
  simp only [hindu_branch_note, String.append_assoc]
  rw [show ("Member of [[File:IO " : String) = "Member of " ++ "[[File:IO "
    from rfl, String.append_assoc]

theorem iconify_note_split (n : String) :
    "Member of \x7b\x7biconify|" ++ n ++ "\x7d\x7d" =
      "Member of " ++ ("\x7b\x7biconify|" ++ (n ++ "\x7d\x7d")) := by
  rw [String.append_assoc,
    show ("Member of \x7b\x7biconify|" : String) =
      "Member of " ++ "\x7b\x7biconify|" from rfl, String.append_assoc]

theorem io_note_shape {p : Eu5ParserTables} {dr : DiplomacyRelationships}
    {cname n s : String} (hs : s ∈ io_note p dr cname n) :
    ∃ r, s = "Member of " ++ r := by
  unfold io_note at hs
  split at hs
  · simp at hs
  · split at hs
    · split at hs
      · dsimp only at hs
        split at hs
        · split at hs
          · simp only [List.mem_singleton] at hs
            subst hs
            exact hindu_branch_note_shape _
          · simp only [List.mem_singleton] at hs
            exact ⟨_, hs⟩
        · simp only [List.mem_singleton] at hs
          exact ⟨_, hs⟩
      · simp only [List.mem_singleton] at hs
        exact ⟨_, hs⟩
    · simp only [List.mem_singleton] at hs
      refine ⟨"\x7b\x7biconify|" ++ (n ++ "\x7d\x7d"), ?_⟩
      rw [hs]
      simp only [String.append_assoc]
      rw [show ("Member of \x7b\x7biconify|" : String) =
        "Member of " ++ "\x7b\x7biconify|" from rfl, String.append_assoc]

theorem formable_note_ne_exist_note : formable_note ≠ "Does not exist in 1337" := by
  decide

theorem subject_notes_of_shape {p : Eu5ParserTables} {c : Country} {s : String}
    (hs : s ∈ subject_notes_of p c) : ∃ a b, s = a ++ " of " ++ b := by
  unfold subject_notes_of at hs
  split at hs
  · simp at hs
  · exact subject_note_shape hs

theorem membership_note_shape {p : Eu5ParserTables} {c : Country} {s : String}
    (hs : s ∈ membership_note_list p c) : ∃ r, s = "Member of " ++ r := by
  unfold membership_note_list at hs
  split at hs
  · simp at hs
  · split at hs
    · simp at hs
    · rw [List.mem_flatMap] at hs
      obtain ⟨n, _, hn⟩ := hs
      exact io_note_shape hn

/-- C6: `get_country_notes` emits the `'Does not exist in 1337'` note
exactly when `our_cores_conquered_by_others` exists and is non-empty while
each of the seven ownership attributes (the test is a disjunction of
per-attribute non-emptiness) is absent or empty. -/
theorem country_existence_note_iff (p : Eu5ParserTables) (c : Country) :
    ("Does not exist in 1337" ∈ get_country_notes p c) ↔
      (locListTruthy c.our_cores_conquered_by_others = true ∧
       locListTruthy c.own_control_core = false ∧
       locListTruthy c.own_core = false ∧
       locListTruthy c.own_conquered = false ∧
       locListTruthy c.own_control_conquered = false ∧
       locListTruthy c.own_control_integrated = false ∧
       locListTruthy c.own_control_colony = false ∧
       locListTruthy c.control = false) := by
  rw [get_country_notes_decompose]
  constructor
  · intro hmem
    rcases List.mem_append.mp hmem with hmem' | hf
    · rcases List.mem_append.mp hmem' with hmem'' | hm
      · rcases List.mem_append.mp hmem'' with he | hsub
        · unfold existence_note_list at he
          split at he
          case isTrue hcond =>
            simp only [has_conquered_cores, has_owned_cores, Bool.and_eq_true,
              Bool.not_eq_true', Bool.or_eq_false_iff] at hcond
            tauto
          case isFalse => simp at he
        · obtain ⟨a, b, hab⟩ := subject_notes_of_shape hsub
          exact absurd hab.symm (mid_of_ne_exist_note a b)
      · obtain ⟨r, hr⟩ := membership_note_shape hm
        exact absurd hr.symm (member_prefix_ne_exist_note r)
    · unfold formable_note_list at hf
      split at hf
      · simp only [List.mem_singleton] at hf
        exact absurd hf.symm formable_note_ne_exist_note
      · simp at hf
  · intro hcond
    obtain ⟨h1, h2, h3, h4, h5, h6, h7, h8⟩ := hcond
    have hex : existence_note_list c = ["Does not exist in 1337"] := by
      simp [existence_note_list, has_conquered_cores, has_owned_cores,
        h1, h2, h3, h4, h5, h6, h7, h8]
    simp [hex]

/-- C8: the notes list of `get_country_notes` is the fixed concatenation of
the existence block, the subject block, the membership block (one entry per
listed organization, in list order) and the formable block; when emitted,
the existence note is first and the formable note is last. -/
theorem get_country_notes_order (p : Eu5ParserTables) (c : Country) :
    (get_country_notes p c =
      existence_note_list c ++ subject_notes_of p c ++
        membership_note_list p c ++ formable_note_list p c) ∧
    ((has_conquered_cores c && !has_owned_cores c) = true →
      (get_country_notes p c).head? = some "Does not exist in 1337") ∧
    ((p.formable_countries.any fun fc => fc.country_name == c.name) = true →
      (get_country_notes p c).getLast? = some formable_note) := by
  refine ⟨get_country_notes_decompose p c, ?_, ?_⟩
  · intro hcond
    rw [get_country_notes_decompose]
    have hex : existence_note_list c = ["Does not exist in 1337"] := by
      simp [existence_note_list, hcond]
    simp [hex]
  · intro hf
    unfold get_country_notes
    simp only [hf, if_true]
    exact List.getLast?_concat _

/-- C7: the membership block of `get_country_notes` contributes, per listed
organization in declaration order, no note when the lower-cased name is
`catholic_church` or `papacy` and exactly one `'Member of …'` note
otherwise; for `hindu_branch` the note shows the branch display name
resolved through `io_member_laws`, preferring a law-policy display name,
then a law display name, then the title-cased raw key. -/
theorem io_membership_notes_spec (p : Eu5ParserTables)
    (dr : DiplomacyRelationships) (c : Country)
    (hdr : p.diplomacy_relationships = some dr) :
    (∀ io_names, alookup dr.io_members c.name = some io_names →
      membership_note_list p c = io_names.flatMap (io_note p dr c.name)) ∧
    (∀ n : String, (pyLower n = "catholic_church" ∨ pyLower n = "papacy") →
      io_note p dr c.name n = []) ∧
    (∀ n : String, ¬(pyLower n = "catholic_church" ∨ pyLower n = "papacy") →
      ∃ r, io_note p dr c.name n = ["Member of " ++ r]) ∧
    (∀ (n : String) (io_obj : InternationalOrganization) (k : String)
        (rest : List String),
      pyLower n = "hindu_branch" →
      alookup p.international_organizations n = some io_obj →
      (alookup ((alookup dr.io_member_laws c.name).getD []) n).getD [] = k :: rest →
      branch_display_for p k ≠ "" →
      io_note p dr c.name n = [hindu_branch_note (branch_display_for p k)]) ∧
    (∀ (k : String) (lp : LawLike), alookup p.law_policies k = some lp →
      branch_display_for p k = lp.display_name) ∧
    (∀ (k : String) (l : LawLike), alookup p.law_policies k = Option.none →
      alookup p.laws k = some l → branch_display_for p k = l.display_name) ∧
    (∀ k : String, alookup p.law_policies k = Option.none →
      alookup p.laws k = Option.none →
      branch_display_for p k = pyTitle (k.replace "_" " ")) := by
  refine ⟨?_, ?_, ?_, ?_, ?_, ?_, ?_⟩
  · intro io_names hio
    simp [membership_note_list, hdr, hio]
  · intro n hn
    have hb : (pyLower n == "catholic_church" || pyLower n == "papacy") = true := by
      rcases hn with h | h <;> simp [h]
    simp [io_note, hb]
  · intro n hn
    have hb : (pyLower n == "catholic_church" || pyLower n == "papacy") = false := by
      push_neg at hn
      simp [hn.1, hn.2]
    cases horg : alookup p.international_organizations n with
    | none =>
      refine ⟨"\x7b\x7biconify|" ++ (n ++ "\x7d\x7d"), ?_⟩
      simp only [io_note, hb, horg, Bool.false_eq_true, if_false]
      rw [iconify_note_split]
    | some io_obj =>
      by_cases hh : (pyLower n == "hindu_branch") = true
      · cases hbl :
            (alookup ((alookup dr.io_member_laws c.name).getD []) n).getD [] with
        | nil =>
          refine ⟨io_obj.wiki_link_with_icon, ?_⟩
          simp only [io_note, hb, horg, hh, hbl, Bool.false_eq_true, if_false,
            if_true]
        | cons k rest =>
          by_cases hbd : branch_display_for p k ≠ ""
          · obtain ⟨r, hr⟩ := hindu_branch_note_shape (branch_display_for p k)
            refine ⟨r, ?_⟩
            simp only [io_note, hb, horg, hh, hbl, Bool.false_eq_true, if_false,
              if_true, if_pos hbd, hr]
          · refine ⟨io_obj.wiki_link_with_icon, ?_⟩
            simp only [io_note, hb, horg, hh, hbl, Bool.false_eq_true, if_false,
              if_true, if_neg hbd]
      · refine ⟨io_obj.wiki_link_with_icon, ?_⟩
        simp only [io_note, hb, horg, hh, Bool.false_eq_true, if_false]
  · intro n io_obj k rest hh horg hbl hbd
    have hb : (pyLower n == "catholic_church" || pyLower n == "papacy") = false := by
      simp [hh]
    have hh' : (pyLower n == "hindu_branch") = true := by simp [hh]
    simp only [io_note, hb, horg, hh', hbl, Bool.false_eq_true, if_false, if_true,
      if_pos hbd]
  · intro k lp hk
    simp [branch_display_for, hk]
  · intro k l hk hl
    simp [branch_display_for, hk, hl]
  · intro k hk hl
    simp [branch_display_for, hk, hl]

/-- Witness for C7: the papacy membership is suppressed, the Hindu-branch
membership note substitutes the law-policy display name, and the display
name resolution prefers the law-policy table. -/
theorem io_membership_notes_spec_witness :
    io_note exampleTables exampleDr "BLA" "papacy" = [] ∧
    io_note exampleTables exampleDr "BLA" "hindu_branch" =
      [hindu_branch_note "Vaishnavism"] ∧
    branch_display_for exampleTables "vaishnava_branch" = "Vaishnavism" := by
  have hspec := io_membership_notes_spec exampleTables exampleDr exampleCountryB rfl
  refine ⟨hspec.2.1 "papacy" (by right; decide), ?_, hspec.2.2.2.2.1 "vaishnava_branch"
    ⟨"Vaishnavism"⟩ rfl⟩
  have h4 := hspec.2.2.2.1 "hindu_branch" ⟨"[[File:IO hindu.png|24px]]"⟩
    "vaishnava_branch" [] (by decide) rfl rfl (by decide)
  have h5 := hspec.2.2.2.2.1 "vaishnava_branch" ⟨"Vaishnavism"⟩ rfl
  have hname : exampleCountryB.name = "BLA" := rfl
  rw [hname] at h4
  rw [h4, h5]

/-- Witness for C8: for the witness country the existence note comes first
and the formable note comes last. -/
theorem get_country_notes_order_witness :
    (get_country_notes exampleTables exampleCountryB).head? =
      some "Does not exist in 1337" ∧
    (get_country_notes exampleTables exampleCountryB).getLast? =
      some formable_note :=
  ⟨(get_country_notes_order exampleTables exampleCountryB).2.1 (by decide),
   (get_country_notes_order exampleTables exampleCountryB).2.2 (by decide)⟩

/-! ## Theorem about concept sections -/

/-- C9: `get_concept_section` ends with the description wrapped between a
begin marker and an end marker that carry the same key, the concept's stable
name; and as a pure function it yields byte-identical output when run twice
on the same inputs. -/
theorem get_concept_section_markers (fltext : String → List String → String)
    (all_concept_names : List String) (concept : Eu5GameConcept) :
    ∃ pre,
      get_concept_section fltext all_concept_names concept =
        pre ++
          ["<section begin=autogenerated_concept_" ++ concept.name ++ "/>" ++
             get_concept_section_contents fltext all_concept_names concept ++
             "<section end=autogenerated_concept_" ++ concept.name ++ "/>"] ∧
      get_concept_section fltext all_concept_names concept =
        get_concept_section fltext all_concept_names concept := by
  unfold get_concept_section
  exact ⟨_, rfl, rfl⟩

end GenTables
